import Mathlib

/-!
Shallow embedding of the stock-portfolio application (src/app.py).

Modelling conventions:
* Money and prices are rational numbers (`ℚ`): Python's `/` on floats is
  full-precision (non-integer) division, which `ℚ` division models exactly.
* A calendar date (`datetime.date`) is a year/month/day triple.  `toOrdinal`
  is the standard civil-calendar day number (days since 1970-01-01, the
  days-from-civil algorithm), mirroring `date.toordinal` up to a constant
  shift; Python compares and subtracts dates by ordinal, which is what
  `dateMin`, `daysHeld` and the `<`/`≤` comparisons below use.
* A date *string* is modelled by its behaviour under
  `datetime.strptime(d, "%Y-%m-%d")` (the only thing app.py ever does with
  one): `DStr.valid d` stands for a string that parses to the date `d`, and
  `DStr.malformed` for one on which `strptime` raises.  `strftime("%Y-%m-%d")`
  of a date `d` produces a string that parses back to `d`, i.e. `DStr.valid d`.
* Python's `int(...)`/`float(...)` conversions of form fields are modelled by
  `Option` inputs: `none` means the conversion raises `ValueError`
  (surfaced to the caller as an input error before any database access).
* The sqlite `stocks` table is a list of rows; `SELECT ... WHERE symbol=?`
  with `fetchone` is `List.find?`, and `UPDATE ... WHERE symbol=?` maps over
  all rows with that symbol.  The watchlist is a list of strings whose UNIQUE
  column raises `IntegrityError` on duplicate insert; alerts are a list of
  (symbol, target) pairs with no uniqueness constraint.
-/

/-- A calendar date, as in Python's `datetime.date`. -/
structure Date where
  year : Int
  month : Int
  day : Int
deriving DecidableEq

/-- Day number of a civil date (days since 1970-01-01), the standard
days-from-civil algorithm.  Python's `date.toordinal` equals this plus the
fixed offset 719468 - 305; dates compare and subtract identically. -/
def toOrdinal (dt : Date) : Int :=
  let y : Int := if dt.month ≤ 2 then dt.year - 1 else dt.year
  let era : Int := (if 0 ≤ y then y else y - 399) / 400
  let yoe : Int := y - era * 400
  let mp : Int := (dt.month + 9) % 12
  let doy : Int := (153 * mp + 2) / 5 + dt.day - 1
  let doe : Int := yoe * 365 + yoe / 4 - yoe / 100 + doy
  era * 146097 + doe - 719468

/-- `(today - d).days` for two dates: difference of day numbers. -/
def daysHeld (today d : Date) : Int :=
  toOrdinal today - toOrdinal d

/-- Python's `min(a, b)` on dates: `b` when `b < a`, else `a`. -/
def dateMin (a b : Date) : Date :=
  if toOrdinal b < toOrdinal a then b else a

/-- A date string, quotiented by its behaviour under
`strptime("%Y-%m-%d")`: either it parses to a date or it is malformed. -/
inductive DStr where
  | valid (d : Date)
  | malformed
deriving DecidableEq

/-- `parse_date` (app.py lines 53-57): `strptime(d, "%Y-%m-%d").date()`,
returning `None` when parsing raises. -/
def parse_date : DStr → Option Date
  | DStr.valid d => some d
  | DStr.malformed => none

/-- Round-half-to-even to the nearest integer, as Python's builtin `round`. -/
def roundHalfEven (x : ℚ) : Int :=
  let f : Int := x.floor
  let r : ℚ := x - (f : ℚ)
  if r < 1/2 then f
  else if 1/2 < r then f + 1
  else if f % 2 = 0 then f else f + 1

/-- Python's `round(x, 2)`, at rational precision. -/
def round2 (x : ℚ) : ℚ :=
  (roundHalfEven (x * 100) : ℚ) / 100

/-- Python's `str.upper()`: uppercase every character. -/
def pyUpper (s : String) : String :=
  ⟨s.data.map Char.toUpper⟩

/-- Python's `str.strip()`: drop leading and trailing whitespace. -/
def pyStrip (s : String) : String :=
  ⟨((s.data.dropWhile Char.isWhitespace).reverse.dropWhile
      Char.isWhitespace).reverse⟩

/-- `request.form["symbol"].upper().strip()` (app.py lines 63, 203, 218). -/
def normSymbol (s : String) : String :=
  pyStrip (pyUpper s)

/-- A row of the `stocks` table (the `id` column is never consulted). -/
structure Position where
  symbol : String
  quantity : Int
  buyPrice : ℚ
  buyDate : DStr
  notes : String
deriving DecidableEq

/-- A `ValueError` raised by `int(...)`/`float(...)` on a form field,
surfaced synchronously to the caller before any database write. -/
inductive InputError where
  | malformedNumber
deriving DecidableEq

/-- `SELECT ... FROM stocks WHERE symbol=?` with `fetchone()`:
the first row whose symbol matches. -/
def findStock (stocks : List Position) (sym : String) : Option Position :=
  stocks.find? (fun p => p.symbol == sym)

/-- `UPDATE stocks SET quantity=?, buy_price=?, buy_date=?, notes=?
WHERE symbol=?`: every row with that symbol gets the new field values. -/
def updateStock (stocks : List Position) (sym : String)
    (q : Int) (bp : ℚ) (bd : DStr) (nts : String) : List Position :=
  stocks.map (fun p =>
    if p.symbol == sym then
      { p with quantity := q, buyPrice := bp, buyDate := bd, notes := nts }
    else p)

/-- The date-normalisation step of the POST branch (app.py lines 69-73):
a malformed/missing date, or one strictly after today, becomes today (and
the stored string becomes today's `strftime`); otherwise the parsed date
and the original string are kept. -/
def clampDate (buy_date_str : DStr) (today : Date) : Date × DStr :=
  match parse_date buy_date_str with
  | none => (today, DStr.valid today)
  | some bd =>
      if toOrdinal today < toOrdinal bd then (today, DStr.valid today)
      else (bd, buy_date_str)

/-- The POST branch of `dashboard` (app.py lines 62-101): record a purchase.
`quantity`/`buy_price` are the results of `int(...)`/`float(...)` on the form
fields (`none` = the conversion raised, so the handler fails before opening
the database and no write occurs). -/
def recordPurchase (stocks : List Position) (symbolRaw : String)
    (quantity : Option Int) (buy_price : Option ℚ) (buy_date_str : DStr)
    (notesRaw : String) (today : Date) : Except InputError (List Position) :=
  match quantity, buy_price with
  | some qty, some price =>
    let symbol := normSymbol symbolRaw
    let nts := pyStrip notesRaw
    let bd := clampDate buy_date_str today
    match findStock stocks symbol with
    | some row =>
        let new_qty := row.quantity + qty
        let new_bp := (row.buyPrice * (row.quantity : ℚ) + price * (qty : ℚ)) /
          (new_qty : ℚ)
        let old_date := (parse_date row.buyDate).getD bd.1
        let final_date := dateMin old_date bd.1
        Except.ok (updateStock stocks symbol new_qty new_bp
          (DStr.valid final_date) nts)
    | none =>
        let newRow : Position :=
          { symbol := symbol, quantity := qty, buyPrice := price,
            buyDate := bd.2, notes := nts }
        Except.ok (stocks ++ [newRow])
  | _, _ => Except.error InputError.malformedNumber

/-- The stored row for `sym` after a `recordPurchase` result
(`none` when the purchase errored or no row exists). -/
def stockAfter (r : Except InputError (List Position)) (sym : String) :
    Option Position :=
  match r with
  | Except.ok stocks => findStock stocks sym
  | Except.error _ => none

/-- One entry of the rendered `portfolio` list (app.py lines 149-161). -/
structure PosView where
  symbol : String
  qty : Int
  bp : ℚ
  live : ℚ
  invest : ℚ
  current : ℚ
  profit : ℚ
  notes : String
  buy_date : DStr
  holding_type : String
  invalid : Bool
deriving DecidableEq

/-- `live_val` (app.py line 129): the live price with 0 substituted when the
lookup returned `None`. -/
def liveValOf (lookup : String → Option ℚ) (p : Position) : ℚ :=
  (lookup p.symbol).getD 0

/-- `invested = qty * bp` (app.py line 131). -/
def investedOf (p : Position) : ℚ :=
  (p.quantity : ℚ) * p.buyPrice

/-- `current = qty * live_val` (app.py line 132). -/
def currentOf (lookup : String → Option ℚ) (p : Position) : ℚ :=
  (p.quantity : ℚ) * liveValOf lookup p

/-- `pl = current - invested` (app.py line 133). -/
def plOf (lookup : String → Option ℚ) (p : Position) : ℚ :=
  currentOf lookup p - investedOf p

/-- The holding classification of a position (app.py lines 138-147):
`none` when `buy_date` fails to parse, otherwise whether
`days_held > 365`. -/
def clsOf (today : Date) (p : Position) : Option Bool :=
  (parse_date p.buyDate).map (fun d => decide (365 < daysHeld today d))

/-- The dictionary appended to `portfolio` for one stock row
(app.py lines 149-161). -/
def mkView (lookup : String → Option ℚ) (today : Date) (p : Position) :
    PosView :=
  { symbol := p.symbol
    qty := p.quantity
    bp := round2 p.buyPrice
    live := round2 (liveValOf lookup p)
    invest := round2 (investedOf p)
    current := round2 (currentOf lookup p)
    profit := round2 (plOf lookup p)
    notes := p.notes
    buy_date := p.buyDate
    holding_type :=
      match clsOf today p with
      | some true => "Long"
      | some false => "Short"
      | none => "N/A"
    invalid := (lookup p.symbol).isNone }

/-- The loop state of the portfolio calculation (app.py lines 119-124). -/
structure PAcc where
  portfolio : List PosView
  total_invested : ℚ
  total_value : ℚ
  total_long_pl : ℚ
  total_short_pl : ℚ
deriving DecidableEq

/-- One iteration of the portfolio loop (app.py lines 126-161): value the
row, accumulate the invested/current totals unconditionally, and add the
(unrounded) P/L to the long or short bucket according to the
classification — to neither when the stored date fails to parse. -/
def valStep (lookup : String → Option ℚ) (today : Date) (acc : PAcc)
    (p : Position) : PAcc :=
  { portfolio := acc.portfolio ++ [mkView lookup today p]
    total_invested := acc.total_invested + investedOf p
    total_value := acc.total_value + currentOf lookup p
    total_long_pl := acc.total_long_pl +
      (match clsOf today p with
       | some true => plOf lookup p
       | _ => 0)
    total_short_pl := acc.total_short_pl +
      (match clsOf today p with
       | some false => plOf lookup p
       | _ => 0) }

/-- The full valuation summary (unrounded engine values; app.py rounds each
total only when handing it to `render_template`). -/
structure Summary where
  portfolio : List PosView
  total_invested : ℚ
  total_value : ℚ
  total_profit : ℚ
  total_long_pl : ℚ
  total_short_pl : ℚ
deriving DecidableEq

/-- The read path of `dashboard` (app.py lines 118-163): fold the portfolio
loop over the stock rows and derive `total_profit = total_value -
total_invested` (line 163). -/
def dashboard_view (stocks : List Position) (lookup : String → Option ℚ)
    (today : Date) : Summary :=
  let acc := stocks.foldl (valStep lookup today) ⟨[], 0, 0, 0, 0⟩
  { portfolio := acc.portfolio
    total_invested := acc.total_invested
    total_value := acc.total_value
    total_profit := acc.total_value - acc.total_invested
    total_long_pl := acc.total_long_pl
    total_short_pl := acc.total_short_pl }

/-- One entry of the rendered `alerts` list (app.py lines 166-175). -/
structure AlertView where
  symbol : String
  target : ℚ
  live : ℚ
  hit : Bool
deriving DecidableEq

/-- Evaluation of one alert (app.py lines 167-175): substitute 0 for a
missing quote in the displayed (rounded) live value, and
`hit = lp is not None and live_val >= target`. -/
def eval_alert (lookup : String → Option ℚ) (sym : String) (target : ℚ) :
    AlertView :=
  let lp := lookup sym
  let live_val := lp.getD 0
  { symbol := sym
    target := round2 target
    live := round2 live_val
    hit := lp.isSome && decide (target ≤ live_val) }

/-- The alert loop (app.py lines 166-175). -/
def eval_alerts (alert_rows : List (String × ℚ))
    (lookup : String → Option ℚ) : List AlertView :=
  alert_rows.map (fun a => eval_alert lookup a.1 a.2)

/-- The UNIQUE-column violation raised by sqlite on a duplicate insert. -/
inductive DBError where
  | integrityError
deriving DecidableEq

/-- `INSERT INTO watchlist(symbol) VALUES(?)` against the UNIQUE column:
raises `IntegrityError` when the symbol is already present. -/
def insert_watch (watchlist : List String) (symbol : String) :
    Except DBError (List String) :=
  if symbol ∈ watchlist then Except.error DBError.integrityError
  else Except.ok (watchlist ++ [symbol])

/-- `add_watch` (app.py lines 201-214): normalise the symbol, ignore it when
empty, insert it, and swallow the duplicate-key `IntegrityError`
(`except sqlite3.IntegrityError: pass`) so the caller never sees an error. -/
def add_watch (watchlist : List String) (symbolRaw : String) : List String :=
  let symbol := normSymbol symbolRaw
  if symbol = "" then watchlist
  else
    match insert_watch watchlist symbol with
    | Except.ok wl => wl
    | Except.error DBError.integrityError => watchlist

/-- `add_alert` (app.py lines 216-225): `float(request.form["target"])`
(`none` = `ValueError`, raised before the database is opened, so no write
occurs), then append the (normalised symbol, target) row unconditionally. -/
def add_alert (alerts : List (String × ℚ)) (symbolRaw : String)
    (target : Option ℚ) : Except InputError (List (String × ℚ)) :=
  match target with
  | none => Except.error InputError.malformedNumber
  | some t => Except.ok (alerts ++ [(normSymbol symbolRaw, t)])

/-! Helper lemmas about the store operations. -/

/-- After an `UPDATE ... WHERE symbol=?`, looking the symbol up again yields
the first matching row with the updated fields. -/
theorem findStock_updateStock (stocks : List Position) (sym : String)
    (q : Int) (bp : ℚ) (bd : DStr) (nts : String) (row : Position)
    (h : findStock stocks sym = some row) :
    findStock (updateStock stocks sym q bp bd nts) sym =
      some { row with quantity := q, buyPrice := bp, buyDate := bd,
                      notes := nts } := by
  induction stocks with
  | nil => simp [findStock] at h
  | cons hd tl ih =>
      by_cases hs : (hd.symbol == sym) = true
      · simp [findStock, List.find?, hs] at h ⊢
        simp [updateStock, List.find?, hs, ← h]
      · simp [findStock, List.find?, hs] at h ⊢
        simpa [updateStock, findStock, List.find?, hs] using ih h

/-- Any row found after an `UPDATE ... WHERE symbol=?` carries the updated
`buy_date` value. -/
theorem findStock_updateStock_buyDate (stocks : List Position) (sym : String)
    (q : Int) (bp : ℚ) (bd : DStr) (nts : String) (r : Position)
    (h : findStock (updateStock stocks sym q bp bd nts) sym = some r) :
    r.buyDate = bd := by
  rw [findStock] at h
  have hmem := List.mem_of_find?_eq_some h
  have hpred := List.find?_some h
  rw [updateStock] at hmem
  rcases List.mem_map.mp hmem with ⟨p, _, hp⟩
  by_cases hc : (p.symbol == sym) = true
  · rw [if_pos hc] at hp
    rw [← hp]
  · rw [if_neg hc] at hp
    rw [← hp] at hpred
    exact absurd hpred hc

/-- Appending a fresh row to a table with no row for its symbol makes it the
row found for that symbol. -/
theorem findStock_append_self (stocks : List Position) (p : Position)
    (h : findStock stocks p.symbol = none) :
    findStock (stocks ++ [p]) p.symbol = some p := by
  rw [findStock] at h
  rw [findStock, List.find?_append, h]
  simp [List.find?]

/-- The clamped purchase date is never after today, and the stored string
parses back to it. -/
theorem clampDate_spec (dstr : DStr) (today : Date) :
    parse_date (clampDate dstr today).2 = some (clampDate dstr today).1 ∧
      toOrdinal (clampDate dstr today).1 ≤ toOrdinal today := by
  unfold clampDate
  match hp : parse_date dstr with
  | none => simp [parse_date]
  | some bd =>
      by_cases hlt : toOrdinal today < toOrdinal bd
      · simp [hlt, parse_date]
      · simp [hlt, hp]
        omega

/-- `min(a, b)` on dates is never after `b`. -/
theorem toOrdinal_dateMin_le_right (a b : Date) :
    toOrdinal (dateMin a b) ≤ toOrdinal b := by
  unfold dateMin
  by_cases h : toOrdinal b < toOrdinal a
  · simp [h]
  · simp [h]
    omega

/-- `min(d, d) = d` for dates. -/
theorem dateMin_self (d : Date) : dateMin d d = d := by
  simp [dateMin]

/-- The portfolio loop appends exactly one view per stock row. -/
theorem valFold_length (stocks : List Position)
    (lookup : String → Option ℚ) (today : Date) (acc : PAcc) :
    (stocks.foldl (valStep lookup today) acc).portfolio.length =
      acc.portfolio.length + stocks.length := by
  induction stocks generalizing acc with
  | nil => simp
  | cons hd tl ih =>
      simp only [List.foldl_cons, ih, valStep, List.length_append]
      simp
      omega

/-! The claims. -/

/-- C1: recording a purchase of positive quantity `q` at price `p` onto an
existing position with quantity `q0` and average cost `c0` leaves the stored
position with quantity `q0 + q` and average cost `(c0*q0 + p*q) / (q0 + q)`,
the quantity-weighted mean computed with full-precision rational division. -/
theorem recordPurchase_weighted_average (stocks : List Position)
    (symRaw : String) (q : Int) (pr : ℚ) (dstr : DStr) (nts : String)
    (today : Date) (row : Position)
    (_hq : 0 < q) (_hq0 : 0 < row.quantity)
    (hfind : findStock stocks (normSymbol symRaw) = some row) :
    (stockAfter (recordPurchase stocks symRaw (some q) (some pr) dstr nts
        today) (normSymbol symRaw)).map (fun r => (r.quantity, r.buyPrice)) =
      some (row.quantity + q,
        (row.buyPrice * (row.quantity : ℚ) + pr * (q : ℚ)) /
          ((row.quantity : ℚ) + (q : ℚ))) := by
  rw [recordPurchase]
  simp only [hfind, stockAfter]
  rw [findStock_updateStock stocks (normSymbol symRaw) _ _ _ _ row hfind]
  push_cast
  simp

/-- C1 witness: recording 10 @ 100 then 10 @ 200 on the same symbol yields
quantity 20 and average cost 150. -/
theorem recordPurchase_weighted_average_witness :
    findStock [⟨"AAPL", 10, 100, DStr.valid ⟨2020, 1, 1⟩, ""⟩]
        (normSymbol "AAPL") =
      some ⟨"AAPL", 10, 100, DStr.valid ⟨2020, 1, 1⟩, ""⟩ ∧
    (0 : Int) < 10 ∧
    (stockAfter (recordPurchase [⟨"AAPL", 10, 100, DStr.valid ⟨2020, 1, 1⟩,
        ""⟩] "AAPL" (some 10) (some 200) (DStr.valid ⟨2020, 6, 1⟩) ""
        ⟨2021, 1, 1⟩) (normSymbol "AAPL")).map
      (fun r => (r.quantity, r.buyPrice)) = some (20, 150) := by
  refine ⟨rfl, by norm_num, ?_⟩
  have h := recordPurchase_weighted_average
    [⟨"AAPL", 10, 100, DStr.valid ⟨2020, 1, 1⟩, ""⟩] "AAPL" 10 200
    (DStr.valid ⟨2020, 6, 1⟩) "" ⟨2021, 1, 1⟩
    ⟨"AAPL", 10, 100, DStr.valid ⟨2020, 1, 1⟩, ""⟩ (by norm_num)
    (by norm_num) rfl
  rw [h]
  norm_num

/-- `Rat.floor` agrees with the floor of the `FloorRing` instance. -/
theorem rat_floor_eq_floor (x : ℚ) : x.floor = ⌊x⌋ := rfl

/-- C2: a position whose stored date parses to `d` is classified Long when
`daysHeld = today - d > 365` and Short otherwise (strict boundary); a
position whose stored date does not parse is classified N/A (the Unknown
class), contributes to neither the long nor the short P/L total, and still
contributes to the invested and current-value totals. -/
theorem holding_classification (lookup : String → Option ℚ) (today : Date)
    (p : Position) (acc : PAcc) :
    (∀ d, parse_date p.buyDate = some d → 365 < daysHeld today d →
      (mkView lookup today p).holding_type = "Long") ∧
    (∀ d, parse_date p.buyDate = some d → daysHeld today d ≤ 365 →
      (mkView lookup today p).holding_type = "Short") ∧
    (parse_date p.buyDate = none →
      (mkView lookup today p).holding_type = "N/A" ∧
      (valStep lookup today acc p).total_long_pl = acc.total_long_pl ∧
      (valStep lookup today acc p).total_short_pl = acc.total_short_pl ∧
      (valStep lookup today acc p).total_invested =
        acc.total_invested + investedOf p ∧
      (valStep lookup today acc p).total_value =
        acc.total_value + currentOf lookup p) := by
  refine ⟨?_, ?_, ?_⟩
  · intro d hd hgt
    simp [mkView, clsOf, hd, hgt]
  · intro d hd hle
    simp [mkView, clsOf, hd, show ¬(365 < daysHeld today d) from not_lt.mpr hle]
  · intro hd
    simp [mkView, valStep, clsOf, hd]

/-- C2 witness: with today 2021-01-01, an open date of 2020-01-01 gives
`daysHeld = 366` and class Long, 2020-01-02 gives `daysHeld = 365` and class
Short, and an unparsable stored date gives class N/A with the long and short
totals unchanged. -/
theorem holding_classification_witness :
    daysHeld ⟨2021, 1, 1⟩ ⟨2020, 1, 1⟩ = 366 ∧
    (mkView (fun _ => some 50) ⟨2021, 1, 1⟩
      ⟨"AAPL", 5, 10, DStr.valid ⟨2020, 1, 1⟩, ""⟩).holding_type = "Long" ∧
    daysHeld ⟨2021, 1, 1⟩ ⟨2020, 1, 2⟩ = 365 ∧
    (mkView (fun _ => some 50) ⟨2021, 1, 1⟩
      ⟨"AAPL", 5, 10, DStr.valid ⟨2020, 1, 2⟩, ""⟩).holding_type = "Short" ∧
    (mkView (fun _ => some 50) ⟨2021, 1, 1⟩
      ⟨"AAPL", 5, 10, DStr.malformed, ""⟩).holding_type = "N/A" ∧
    (valStep (fun _ => some 50) ⟨2021, 1, 1⟩ ⟨[], 3, 4, 5, 6⟩
      ⟨"AAPL", 5, 10, DStr.malformed, ""⟩).total_long_pl = 5 ∧
    (valStep (fun _ => some 50) ⟨2021, 1, 1⟩ ⟨[], 3, 4, 5, 6⟩
      ⟨"AAPL", 5, 10, DStr.malformed, ""⟩).total_short_pl = 6 := by
  have h1 := (holding_classification (fun _ => some 50) ⟨2021, 1, 1⟩
    ⟨"AAPL", 5, 10, DStr.valid ⟨2020, 1, 1⟩, ""⟩ ⟨[], 3, 4, 5, 6⟩).1
    ⟨2020, 1, 1⟩ rfl (by decide)
  have h2 := (holding_classification (fun _ => some 50) ⟨2021, 1, 1⟩
    ⟨"AAPL", 5, 10, DStr.valid ⟨2020, 1, 2⟩, ""⟩ ⟨[], 3, 4, 5, 6⟩).2.1
    ⟨2020, 1, 2⟩ rfl (by decide)
  have h3 := (holding_classification (fun _ => some 50) ⟨2021, 1, 1⟩
    ⟨"AAPL", 5, 10, DStr.malformed, ""⟩ ⟨[], 3, 4, 5, 6⟩).2.2 rfl
  exact ⟨by decide, h1, by decide, h2, h3.1, h3.2.1, h3.2.2.1⟩

/-- C3: when the price lookup for a position returns `None`, the valuation
does not fail: the raw current value is 0, the raw profit/loss is 0 minus
the invested amount, the view is flagged invalid (its displayed current
value and profit are the rounded raw values), the invested amount still
enters the invested total and 0 enters the current-value total; and the
portfolio snapshot always contains one view per stored position whatever
the lookup returns. -/
theorem price_unavailable_degradation (lookup : String → Option ℚ)
    (today : Date) (p : Position) (acc : PAcc) (stocks : List Position) :
    (lookup p.symbol = none →
      (mkView lookup today p).invalid = true ∧
      currentOf lookup p = 0 ∧
      plOf lookup p = 0 - investedOf p ∧
      (mkView lookup today p).current = round2 0 ∧
      (mkView lookup today p).profit = round2 (0 - investedOf p) ∧
      (valStep lookup today acc p).total_invested =
        acc.total_invested + investedOf p ∧
      (valStep lookup today acc p).total_value = acc.total_value + 0) ∧
    (dashboard_view stocks lookup today).portfolio.length = stocks.length := by
  constructor
  · intro hn
    have hcur : currentOf lookup p = 0 := by
      simp [currentOf, liveValOf, hn]
    refine ⟨by simp [mkView, hn], hcur, by simp [plOf, hcur],
      by simp [mkView, hcur], by simp [mkView, plOf, hcur],
      by simp [valStep], by simp [valStep, hcur]⟩
  · have h := valFold_length stocks lookup today ⟨[], 0, 0, 0, 0⟩
    simpa [dashboard_view] using h

/-- C3 witness: a position with quantity 5 and average cost 10 whose lookup
fails is shown invalid with current value 0 and profit -50, and is still
counted in the totals. -/
theorem price_unavailable_degradation_witness :
    ((fun _ => (none : Option ℚ)) "AAPL" = none) ∧
    (mkView (fun _ => none) ⟨2024, 6, 1⟩
      ⟨"AAPL", 5, 10, DStr.valid ⟨2024, 1, 1⟩, ""⟩).invalid = true ∧
    (mkView (fun _ => none) ⟨2024, 6, 1⟩
      ⟨"AAPL", 5, 10, DStr.valid ⟨2024, 1, 1⟩, ""⟩).current = 0 ∧
    (mkView (fun _ => none) ⟨2024, 6, 1⟩
      ⟨"AAPL", 5, 10, DStr.valid ⟨2024, 1, 1⟩, ""⟩).profit = -50 ∧
    (valStep (fun _ => none) ⟨2024, 6, 1⟩ ⟨[], 0, 0, 0, 0⟩
      ⟨"AAPL", 5, 10, DStr.valid ⟨2024, 1, 1⟩, ""⟩).total_invested = 50 := by
  have h := (price_unavailable_degradation (fun _ => none) ⟨2024, 6, 1⟩
    ⟨"AAPL", 5, 10, DStr.valid ⟨2024, 1, 1⟩, ""⟩ ⟨[], 0, 0, 0, 0⟩ []).1 rfl
  refine ⟨rfl, h.1, ?_, ?_, ?_⟩
  · rw [h.2.2.2.1]
    norm_num [round2, roundHalfEven, rat_floor_eq_floor]
  · rw [h.2.2.2.2.1]
    norm_num [round2, roundHalfEven, rat_floor_eq_floor, investedOf]
  · rw [h.2.2.2.2.2.1]
    norm_num [investedOf]

/-- C4: for every set of positions and every price lookup, the portfolio's
total profit/loss is exactly the total current value minus the total
invested (it is derived from the two totals, line 163 of app.py); and for a
portfolio containing an N/A-classified position with nonzero profit/loss
(here: an unparsable stored date, live price 20 against invested 10), the
long plus short P/L totals are strictly less than the total profit/loss. -/
theorem aggregate_consistency :
    (∀ (stocks : List Position) (lookup : String → Option ℚ) (today : Date),
      (dashboard_view stocks lookup today).total_profit =
        (dashboard_view stocks lookup today).total_value -
          (dashboard_view stocks lookup today).total_invested) ∧
    (dashboard_view [⟨"X", 1, 10, DStr.malformed, ""⟩] (fun _ => some 20)
        ⟨2024, 1, 1⟩).total_long_pl +
      (dashboard_view [⟨"X", 1, 10, DStr.malformed, ""⟩] (fun _ => some 20)
        ⟨2024, 1, 1⟩).total_short_pl <
      (dashboard_view [⟨"X", 1, 10, DStr.malformed, ""⟩] (fun _ => some 20)
        ⟨2024, 1, 1⟩).total_profit := by
  constructor
  · intro stocks lookup today
    rfl
  · simp [dashboard_view, valStep, clsOf, parse_date, currentOf, investedOf,
      liveValOf]
    norm_num

/-- C5: an alert whose price lookup fails reports `hit = false` whatever the
target (the displayed live value is the rounded substituted 0); an alert
whose lookup returns a live price reports `hit = true` exactly when
`target ≤ live`, a non-strict comparison. -/
theorem alert_trigger (lookup : String → Option ℚ) (sym : String)
    (target : ℚ) :
    (lookup sym = none →
      (eval_alert lookup sym target).hit = false ∧
      (eval_alert lookup sym target).live = round2 0) ∧
    (∀ v, lookup sym = some v →
      ((eval_alert lookup sym target).hit = true ↔ target ≤ v)) := by
  constructor
  · intro hn
    simp [eval_alert, hn]
  · intro v hv
    simp [eval_alert, hv]

/-- C5 witness: a live price exactly equal to the target 100 reports
`hit = true`; an unavailable live price reports `hit = false` for the same
target. -/
theorem alert_trigger_witness :
    ((fun _ => (some 100 : Option ℚ)) "AAPL" = some 100) ∧
    (eval_alert (fun _ => some 100) "AAPL" 100).hit = true ∧
    ((fun _ => (none : Option ℚ)) "AAPL" = none) ∧
    (eval_alert (fun _ => none) "AAPL" 100).hit = false := by
  refine ⟨rfl, ?_, rfl, ?_⟩
  · exact ((alert_trigger (fun _ => some 100) "AAPL" 100).2 100 rfl).mpr le_rfl
  · exact ((alert_trigger (fun _ => none) "AAPL" 100).1 rfl).1

/-- C6: merging a purchase into an existing position whose stored date
parses to `dOld` stores the minimum of `dOld` and the incoming purchase's
clamped date as the new open date. -/
theorem earliest_date_retention (stocks : List Position) (symRaw : String)
    (q : Int) (pr : ℚ) (dstr : DStr) (nts : String) (today : Date)
    (row : Position) (dOld : Date)
    (hfind : findStock stocks (normSymbol symRaw) = some row)
    (hold : parse_date row.buyDate = some dOld) :
    (stockAfter (recordPurchase stocks symRaw (some q) (some pr) dstr nts
        today) (normSymbol symRaw)).map (fun r => r.buyDate) =
      some (DStr.valid (dateMin dOld (clampDate dstr today).1)) := by
  simp only [recordPurchase, hfind, stockAfter]
  rw [findStock_updateStock stocks (normSymbol symRaw) _ _ _ _ row hfind]
  simp [hold]

/-- C6 witness: merging a purchase dated 2020-01-01 into a position dated
2021-01-01 yields open date 2020-01-01. -/
theorem earliest_date_retention_witness :
    (stockAfter (recordPurchase
        [⟨"AAPL", 10, 100, DStr.valid ⟨2021, 1, 1⟩, ""⟩] "AAPL" (some 10)
        (some 200) (DStr.valid ⟨2020, 1, 1⟩) "" ⟨2024, 1, 1⟩)
      (normSymbol "AAPL")).map (fun r => r.buyDate) =
      some (DStr.valid ⟨2020, 1, 1⟩) := by
  have h := earliest_date_retention
    [⟨"AAPL", 10, 100, DStr.valid ⟨2021, 1, 1⟩, ""⟩] "AAPL" 10 200
    (DStr.valid ⟨2020, 1, 1⟩) "" ⟨2024, 1, 1⟩
    ⟨"AAPL", 10, 100, DStr.valid ⟨2021, 1, 1⟩, ""⟩ ⟨2021, 1, 1⟩ rfl rfl
  rw [h]
  decide

/-- C7: a malformed purchase date is replaced by today, a date strictly
after today is clamped to today, a date on or before today is kept with its
original string; and whatever the inputs, the row a successful
`recordPurchase` leaves in the store carries a date that parses and is not
after today. -/
theorem future_date_clamp (dstr : DStr) (today : Date) :
    (parse_date dstr = none →
      clampDate dstr today = (today, DStr.valid today)) ∧
    (∀ d, parse_date dstr = some d → toOrdinal today < toOrdinal d →
      clampDate dstr today = (today, DStr.valid today)) ∧
    (∀ d, parse_date dstr = some d → toOrdinal d ≤ toOrdinal today →
      clampDate dstr today = (d, dstr)) ∧
    (∀ (stocks : List Position) (symRaw : String) (q : Int) (pr : ℚ)
      (nts : String) (r : Position),
      stockAfter (recordPurchase stocks symRaw (some q) (some pr) dstr nts
        today) (normSymbol symRaw) = some r →
      ∃ e, parse_date r.buyDate = some e ∧ toOrdinal e ≤ toOrdinal today) := by
  refine ⟨?_, ?_, ?_, ?_⟩
  · intro hn
    simp [clampDate, hn]
  · intro d hd hlt
    simp [clampDate, hd, hlt]
  · intro d hd hle
    simp [clampDate, hd, show ¬(toOrdinal today < toOrdinal d) from
      not_lt.mpr hle]
  · intro stocks symRaw q pr nts r h
    simp only [recordPurchase] at h
    rcases hf : findStock stocks (normSymbol symRaw) with _ | row
    · simp only [hf, stockAfter] at h
      have hself := findStock_append_self stocks
        ⟨normSymbol symRaw, q, pr, (clampDate dstr today).2, pyStrip nts⟩ hf
      have h2 : (some (⟨normSymbol symRaw, q, pr, (clampDate dstr today).2,
          pyStrip nts⟩ : Position)) = some r := by
        rw [← hself]
        exact h
      obtain rfl := Option.some.inj h2
      exact ⟨(clampDate dstr today).1, (clampDate_spec dstr today).1,
        (clampDate_spec dstr today).2⟩
    · simp only [hf, stockAfter] at h
      have hbd := findStock_updateStock_buyDate stocks (normSymbol symRaw)
        _ _ _ _ r h
      refine ⟨dateMin ((parse_date row.buyDate).getD (clampDate dstr today).1)
        (clampDate dstr today).1, ?_, ?_⟩
      · rw [hbd]
        rfl
      · exact le_trans (toOrdinal_dateMin_le_right _ _)
          (clampDate_spec dstr today).2

/-- C7 witness: with today 2025-01-01, a malformed date and the future date
2026-01-01 are both stored as today, while 2024-01-01 is kept as
supplied. -/
theorem future_date_clamp_witness :
    parse_date DStr.malformed = none ∧
    clampDate DStr.malformed ⟨2025, 1, 1⟩ =
      (⟨2025, 1, 1⟩, DStr.valid ⟨2025, 1, 1⟩) ∧
    toOrdinal ⟨2025, 1, 1⟩ < toOrdinal ⟨2026, 1, 1⟩ ∧
    clampDate (DStr.valid ⟨2026, 1, 1⟩) ⟨2025, 1, 1⟩ =
      (⟨2025, 1, 1⟩, DStr.valid ⟨2025, 1, 1⟩) ∧
    clampDate (DStr.valid ⟨2024, 1, 1⟩) ⟨2025, 1, 1⟩ =
      (⟨2024, 1, 1⟩, DStr.valid ⟨2024, 1, 1⟩) := by
  refine ⟨rfl, (future_date_clamp DStr.malformed ⟨2025, 1, 1⟩).1 rfl,
    by decide, ?_, ?_⟩
  · exact (future_date_clamp (DStr.valid ⟨2026, 1, 1⟩) ⟨2025, 1, 1⟩).2.1
      ⟨2026, 1, 1⟩ rfl (by decide)
  · exact (future_date_clamp (DStr.valid ⟨2024, 1, 1⟩) ⟨2025, 1, 1⟩).2.2.1
      ⟨2024, 1, 1⟩ rfl (by decide)

/-- C10: merging a purchase into an existing position whose stored date
string does not parse raises no error; the stored date is treated as the
incoming purchase's clamped date, so that date is what gets stored. -/
theorem merge_unparsable_stored_date (stocks : List Position)
    (symRaw : String) (q : Int) (pr : ℚ) (dstr : DStr) (nts : String)
    (today : Date) (row : Position)
    (hfind : findStock stocks (normSymbol symRaw) = some row)
    (hold : parse_date row.buyDate = none) :
    (stockAfter (recordPurchase stocks symRaw (some q) (some pr) dstr nts
        today) (normSymbol symRaw)).map (fun r => r.buyDate) =
      some (DStr.valid (clampDate dstr today).1) := by
  simp only [recordPurchase, hfind, stockAfter]
  rw [findStock_updateStock stocks (normSymbol symRaw) _ _ _ _ row hfind]
  simp [hold, dateMin_self]

/-- C10 witness: merging a purchase dated 2022-05-05 into a position whose
stored date is unparsable stores 2022-05-05, with no error. -/
theorem merge_unparsable_stored_date_witness :
    (stockAfter (recordPurchase [⟨"AAPL", 10, 100, DStr.malformed, ""⟩]
        "AAPL" (some 10) (some 200) (DStr.valid ⟨2022, 5, 5⟩) ""
        ⟨2024, 1, 1⟩) (normSymbol "AAPL")).map (fun r => r.buyDate) =
      some (DStr.valid ⟨2022, 5, 5⟩) := by
  have h := merge_unparsable_stored_date
    [⟨"AAPL", 10, 100, DStr.malformed, ""⟩] "AAPL" 10 200
    (DStr.valid ⟨2022, 5, 5⟩) "" ⟨2024, 1, 1⟩
    ⟨"AAPL", 10, 100, DStr.malformed, ""⟩ rfl rfl
  rw [h]
  decide

/-- C8 counterexample: a `recordPurchase` whose symbol is empty after
normalisation, with well-formed numbers, raises no input error and writes a
row whose symbol is the empty string; likewise `add_alert` with a
whitespace-only symbol writes an empty-symbol alert row. -/
theorem input_error_empty_symbol_counterexample :
    recordPurchase [] "" (some 1) (some 10) DStr.malformed "" ⟨2024, 1, 1⟩ =
      Except.ok [⟨"", 1, 10, DStr.valid ⟨2024, 1, 1⟩, ""⟩] ∧
    add_alert [] " " (some 5) = Except.ok [("", 5)] :=
  ⟨rfl, rfl⟩

/-- C8 (amended): a non-numeric quantity, price, or target raises an input
error surfaced synchronously to the caller, before the database is touched,
so no partial write occurs (the error result carries no store); an empty
symbol, however, is not rejected by `recordPurchase` or `add_alert`. -/
theorem input_error_no_write (stocks : List Position)
    (alerts : List (String × ℚ)) (symRaw : String) (q : Option Int)
    (pr : Option ℚ) (dstr : DStr) (nts : String) (today : Date) :
    recordPurchase stocks symRaw none pr dstr nts today =
      Except.error InputError.malformedNumber ∧
    recordPurchase stocks symRaw q none dstr nts today =
      Except.error InputError.malformedNumber ∧
    add_alert alerts symRaw none = Except.error InputError.malformedNumber := by
  refine ⟨?_, ?_, rfl⟩
  · cases pr <;> rfl
  · cases q <;> rfl

/-- C9 counterexample: adding the empty symbol to the watchlist twice leaves
no entry at all (the empty symbol is ignored), not exactly one entry. -/
theorem watchlist_add_empty_counterexample :
    add_watch (add_watch [] "") "" = [] ∧
    (add_watch (add_watch [] "") "").count "" = 0 ∧ (0 : Nat) ≠ 1 :=
  ⟨rfl, rfl, by decide⟩

/-- C9 (amended): for a symbol that is nonempty after normalisation, in a
watchlist satisfying the UNIQUE-column invariant (at most one entry per
symbol), adding the symbol twice leaves exactly one entry for it and the
second add is a no-op with no error surfaced (the duplicate-key error is
swallowed); a symbol that is empty after normalisation is ignored
entirely. -/
theorem watchlist_add_idempotent (wl : List String) (symRaw : String)
    (hne : normSymbol symRaw ≠ "")
    (hinv : wl.count (normSymbol symRaw) ≤ 1) :
    (add_watch (add_watch wl symRaw) symRaw).count (normSymbol symRaw) = 1 ∧
    add_watch (add_watch wl symRaw) symRaw = add_watch wl symRaw := by
  by_cases hm : normSymbol symRaw ∈ wl
  · have hstep : add_watch wl symRaw = wl := by
      simp [add_watch, insert_watch, hne, hm]
    have hpos : 0 < wl.count (normSymbol symRaw) :=
      List.count_pos_iff.mpr hm
    constructor
    · rw [hstep, hstep]
      omega
    · rw [hstep, hstep]
  · have h1 : add_watch wl symRaw = wl ++ [normSymbol symRaw] := by
      simp [add_watch, insert_watch, hne, hm]
    have h2 : add_watch (wl ++ [normSymbol symRaw]) symRaw =
        wl ++ [normSymbol symRaw] := by
      simp [add_watch, insert_watch, hne]
    constructor
    · rw [h1, h2, List.count_append]
      rw [List.count_eq_zero.mpr hm]
      simp
    · rw [h1, h2]

/-- C9 witness: adding "tsla" twice to an empty watchlist leaves exactly the
single entry "TSLA", and the second add changes nothing. -/
theorem watchlist_add_idempotent_witness :
    normSymbol "tsla" ≠ "" ∧
    ([] : List String).count (normSymbol "tsla") ≤ 1 ∧
    (add_watch (add_watch [] "tsla") "tsla").count (normSymbol "tsla") = 1 ∧
    add_watch (add_watch [] "tsla") "tsla" = add_watch [] "tsla" := by
  have h := watchlist_add_idempotent [] "tsla" (by decide) (by decide)
  exact ⟨by decide, by decide, h.1, h.2⟩
